import Mathlib

/-
Verification of the style-resolution and layout engine of the
ember-apache-echarts addon.

Embedding conventions:
- JavaScript strings are modelled as lists of characters (`JStr`).
- JavaScript numbers are modelled as rationals; the NaN value produced by
  failed numeric coercions is modelled explicitly by `JsValue.nan`.
- Fallible or heterogeneous JS values are modelled by the `JsValue` sum.
- All definitions are computable so concrete runs can be checked by `decide`.
-/

abbrev JStr := List Char

/-- A JavaScript value as produced by the unit resolver: a (finite) number,
the NaN number, or a string passed through unchanged. -/
inductive JsValue where
  | num (q : ℚ)
  | nan
  | str (s : JStr)
deriving DecidableEq

/-- The sizing context `{width, height}`; each field may be absent, and the
whole context may be absent at the call site (`Option SizingContext`). -/
structure SizingContext where
  width : Option ℚ
  height : Option ℚ
deriving DecidableEq

/-- Drops a single leading minus sign, mirroring the optional `-?` prefix of
the dimension regexes and the sign handling of `parseFloat`. -/
def stripNeg (s : JStr) : JStr := if s.head? = some '-' then s.tail else s

/-- The decimal core `\d+\.?\d*` of the dimension regexes in
`resolve-style.js`: one or more digits, an optional dot, then zero or more
digits, matching the whole of `s`. -/
def numCore (s : JStr) : Bool :=
  !(s.takeWhile Char.isDigit).isEmpty &&
    ((s.drop (s.takeWhile Char.isDigit).length).isEmpty ||
      ((s.drop (s.takeWhile Char.isDigit).length).head? == some '.' &&
        (s.drop (s.takeWhile Char.isDigit).length).tail.all Char.isDigit))

/-- The regex `isPixelDimension = /^-?\d+\.?\d*\px$/` of `resolve-style.js`
(the `\p` escape is just the letter `p`, so the regex requires a literal
`px` suffix after the decimal core). -/
def isPixelDimension (s : JStr) : Bool :=
  match (stripNeg s).reverse with
  | x :: p :: rest => x == 'x' && p == 'p' && numCore rest.reverse
  | _ => false

/-- The regex `isPercentDimension = /^-?\d+\.?\d*%+$/` of `resolve-style.js`:
the decimal core followed by one or more percent signs. -/
def isPercentDimension (s : JStr) : Bool :=
  !((stripNeg s).reverse.takeWhile (· == '%')).isEmpty &&
    numCore (((stripNeg s).reverse.drop
      ((stripNeg s).reverse.takeWhile (· == '%')).length).reverse)

def digitVal (c : Char) : ℕ := c.toNat - 48

def digitsToNat (s : JStr) : ℕ := s.foldl (fun a c => a * 10 + digitVal c) 0

/-- JavaScript `parseFloat`, modelled on the token shapes the dimension
regexes admit (optional sign, digits, optional dot and fraction digits): it
parses the longest such prefix exactly, and yields NaN when no digits start
the string. -/
def parseFloatQ (s : JStr) : JsValue :=
  let neg := s.head? == some '-'
  let cs := stripNeg s
  let ds := cs.takeWhile Char.isDigit
  if ds.isEmpty then .nan
  else
    let rest := cs.drop ds.length
    let frac := if rest.head? == some '.' then rest.tail.takeWhile Char.isDigit else []
    let q : ℚ := (digitsToNat ds : ℚ) + (digitsToNat frac : ℚ) / (10 : ℚ) ^ frac.length
    .num (if neg then -q else q)

/-- JavaScript string-to-number coercion (`ToNumber`) as exercised by
`value.slice(0, -1) / 100.0`: the whole string must be a signed decimal
numeral, otherwise the coercion yields NaN (e.g. when the sliced value still
contains a percent sign, as for `"50%%"`). -/
def toNumberQ (s : JStr) : JsValue :=
  if numCore (stripNeg s) then parseFloatQ s else .nan

/-- `String.prototype.endsWith`. -/
def endsWithJ (s suf : JStr) : Bool := suf.isSuffixOf s

/-- `context?.height ?? 1` from `resolvePercentDimension`. -/
def ctxHeight (context : Option SizingContext) : ℚ :=
  (context.bind SizingContext.height).getD 1

/-- `context?.width ?? 1` from `resolvePercentDimension`. -/
def ctxWidth (context : Option SizingContext) : ℚ :=
  (context.bind SizingContext.width).getD 1

/-- Division of a possibly-NaN number by 100: NaN propagates. -/
def jsDiv100 : JsValue → JsValue
  | .num q => .num (q / 100)
  | _ => .nan

/-- Multiplication of a possibly-NaN number by a number: NaN propagates. -/
def jsMulQ : JsValue → ℚ → JsValue
  | .num q, m => .num (q * m)
  | _, _ => .nan

/-- `resolvePercentDimension(value, side, context)` from `resolve-style.js`:
strips one trailing character, coerces to a number, divides by 100 and
multiplies by the height of the context when the property name ends in
`Top` or `Bottom`, else by its width, defaulting either to 1. -/
def resolvePercentDimension (value side : JStr) (context : Option SizingContext) : JsValue :=
  if endsWithJ side ['T', 'o', 'p'] || endsWithJ side ['B', 'o', 't', 't', 'o', 'm'] then
    jsMulQ (jsDiv100 (toNumberQ value.dropLast)) (ctxHeight context)
  else
    jsMulQ (jsDiv100 (toNumberQ value.dropLast)) (ctxWidth context)

/-- The body of the `mapValues` callback in `resolveStyle`: pixel tokens are
stripped of their `px` suffix and parsed as a float, percent tokens are
resolved against the context, and anything else passes through unchanged. -/
def resolveValue (value property : JStr) (context : Option SizingContext) : JsValue :=
  if isPixelDimension value then parseFloatQ value.dropLast.dropLast
  else if isPercentDimension value then resolvePercentDimension value property context
  else .str value

/-- `resolveStyle(style, context)` from `resolve-style.js`.

Modelled from the spec: `formatCssStyleValue` and `parseCssStyleValue` (the
Style Normalizer and Style Parser) are not under src/; per the spec their
composition turns a style declaration into a mapping from per-side property
names to raw value token strings, and on an already-normalized declaration
(no shorthand keys) it is the identity on that mapping. `resolveStyle` is
therefore embedded as mapping the unit resolution over the entries of a
normalized property bag, exactly as `mapValues` does in the source. The
embedding is total: every entry resolves to a value, no exception path
exists. -/
def resolveStyle (style : List (JStr × JStr)) (context : Option SizingContext) :
    List (JStr × JsValue) :=
  style.map fun e => (e.1, resolveValue e.2 e.1 context)

/-- The fraction-digit part of a decimal token (empty when the token has no
dot). -/
def fracOf (dp : Option JStr) : JStr := dp.getD []

/-- The textual dot-and-fraction part of a decimal token: nothing, or a dot
followed by the fraction digits. -/
def dotPartStr : Option JStr → JStr
  | none => []
  | some fs => '.' :: fs

/-- The text of a signed decimal numeral `-?\d+(\.\d*)?`: optional sign,
integer digits, optional dot plus fraction digits. Every token matched by
the dimension regexes has this shape (before its unit suffix). -/
def numToken (neg : Bool) (ds : JStr) (dp : Option JStr) : JStr :=
  (if neg then ['-'] else []) ++ ds ++ dotPartStr dp

/-- The rational value denoted by a signed decimal numeral. -/
def numTokenValue (neg : Bool) (ds : JStr) (dp : Option JStr) : ℚ :=
  let q : ℚ := (digitsToNat ds : ℚ) + (digitsToNat (fracOf dp) : ℚ) / (10 : ℚ) ^ (fracOf dp).length
  if neg then -q else q

lemma isEmpty_false_of_ne {l : JStr} (h : l ≠ []) : l.isEmpty = false := by
  cases l with
  | nil => exact absurd rfl h
  | cons a t => rfl

lemma digit_beq_false {c x : Char} (h : Char.isDigit c = true) (hx : Char.isDigit x = false) :
    (c == x) = false := by
  refine beq_eq_false_iff_ne.mpr ?_
  intro e
  subst e
  rw [h] at hx
  exact Bool.true_eq_false.mp hx

lemma takeWhile_append_eq {p : Char → Bool} {l r : JStr} (hl : l.all p = true)
    (hr : r.takeWhile p = []) : (l ++ r).takeWhile p = l := by
  induction l with
  | nil => simpa using hr
  | cons a t ih =>
    simp only [List.all_cons, Bool.and_eq_true] at hl
    simp [List.takeWhile_cons, hl.1, ih hl.2]

lemma takeWhile_all_eq {p : Char → Bool} {l : JStr} (hl : l.all p = true) :
    l.takeWhile p = l := by
  induction l with
  | nil => rfl
  | cons a t ih =>
    simp only [List.all_cons, Bool.and_eq_true] at hl
    simp [List.takeWhile_cons, hl.1, ih hl.2]

lemma dotPart_takeWhile (dp : Option JStr) :
    (dotPartStr dp).takeWhile Char.isDigit = [] := by
  cases dp with
  | none => rfl
  | some fs => simp +decide [dotPartStr, List.takeWhile_cons]

lemma body_takeWhile {ds : JStr} (dp : Option JStr) (hall : ds.all Char.isDigit = true) :
    (ds ++ dotPartStr dp).takeWhile Char.isDigit = ds :=
  takeWhile_append_eq hall (dotPart_takeWhile dp)

lemma numCore_body {ds : JStr} {dp : Option JStr} (hds : ds ≠ [])
    (hall : ds.all Char.isDigit = true) (hfall : (fracOf dp).all Char.isDigit = true) :
    numCore (ds ++ dotPartStr dp) = true := by
  unfold numCore
  rw [body_takeWhile dp hall, List.drop_left]
  cases dp with
  | none => simp [dotPartStr, isEmpty_false_of_ne hds]
  | some fs =>
    simp only [fracOf, Option.getD_some] at hfall
    simp [dotPartStr, isEmpty_false_of_ne hds, hfall]

lemma stripNeg_signBody (neg : Bool) {ds : JStr} (r : JStr) (hds : ds ≠ [])
    (hall : ds.all Char.isDigit = true) :
    stripNeg ((if neg then ['-'] else []) ++ (ds ++ r)) = ds ++ r := by
  cases neg with
  | true => simp [stripNeg]
  | false =>
    cases ds with
    | nil => exact absurd rfl hds
    | cons d t =>
      simp only [List.all_cons, Bool.and_eq_true] at hall
      have hd : d ≠ '-' := by
        intro e
        subst e
        exact absurd hall.1 (by decide)
      simp [stripNeg, hd]

lemma head_beq_dash (neg : Bool) {ds : JStr} (r : JStr) (hds : ds ≠ [])
    (hall : ds.all Char.isDigit = true) :
    (((if neg then ['-'] else []) ++ (ds ++ r)).head? == some '-') = neg := by
  cases neg with
  | true => simp
  | false =>
    cases ds with
    | nil => exact absurd rfl hds
    | cons d t =>
      simp only [List.all_cons, Bool.and_eq_true] at hall
      have hd : (d == '-') = false := digit_beq_false hall.1 (by decide)
      simp [hd]

lemma parseFloatQ_numToken (neg : Bool) {ds : JStr} {dp : Option JStr} (hds : ds ≠ [])
    (hall : ds.all Char.isDigit = true) (hfall : (fracOf dp).all Char.isDigit = true) :
    parseFloatQ (numToken neg ds dp) = .num (numTokenValue neg ds dp) := by
  unfold parseFloatQ numToken numTokenValue
  rw [List.append_assoc]
  simp only [head_beq_dash neg (dotPartStr dp) hds hall,
    stripNeg_signBody neg (dotPartStr dp) hds hall, body_takeWhile dp hall,
    isEmpty_false_of_ne hds, List.drop_left]
  cases dp with
  | none => simp [dotPartStr, fracOf]
  | some fs =>
    simp only [fracOf, Option.getD_some] at hfall
    simp [dotPartStr, fracOf, takeWhile_all_eq hfall]

lemma toNumberQ_numToken (neg : Bool) {ds : JStr} {dp : Option JStr} (hds : ds ≠ [])
    (hall : ds.all Char.isDigit = true) (hfall : (fracOf dp).all Char.isDigit = true) :
    toNumberQ (numToken neg ds dp) = .num (numTokenValue neg ds dp) := by
  unfold toNumberQ numToken
  rw [List.append_assoc, stripNeg_signBody neg (dotPartStr dp) hds hall,
    numCore_body hds hall hfall, ← List.append_assoc]
  exact parseFloatQ_numToken neg hds hall hfall

lemma isPixelDimension_token (neg : Bool) {ds : JStr} {dp : Option JStr} (hds : ds ≠ [])
    (hall : ds.all Char.isDigit = true) (hfall : (fracOf dp).all Char.isDigit = true) :
    isPixelDimension (numToken neg ds dp ++ ['p', 'x']) = true := by
  unfold isPixelDimension numToken
  rw [List.append_assoc, List.append_assoc,
    stripNeg_signBody neg (dotPartStr dp ++ ['p', 'x']) hds hall, ← List.append_assoc]
  have hrev : ((ds ++ dotPartStr dp) ++ ['p', 'x']).reverse =
      'x' :: 'p' :: (ds ++ dotPartStr dp).reverse := by simp
  rw [hrev]
  simp [numCore_body hds hall hfall]

lemma body_no_pct {ds : JStr} {dp : Option JStr} (hall : ds.all Char.isDigit = true)
    (hfall : (fracOf dp).all Char.isDigit = true) :
    ∀ c ∈ ds ++ dotPartStr dp, (c == '%') = false := by
  intro c hc
  rcases List.mem_append.1 hc with h | h
  · exact digit_beq_false (by
      have := List.all_eq_true.1 hall
      exact this c h) (by decide)
  · cases dp with
    | none => simp [dotPartStr] at h
    | some fs =>
      simp only [fracOf, Option.getD_some] at hfall
      simp only [dotPartStr, List.mem_cons] at h
      rcases h with h | h
      · subst h; decide
      · exact digit_beq_false (List.all_eq_true.1 hfall c h) (by decide)

lemma takeWhile_pct_nil {l : JStr} (h : ∀ c ∈ l, (c == '%') = false) :
    l.takeWhile (· == '%') = [] := by
  cases l with
  | nil => rfl
  | cons a t => simp [List.takeWhile_cons, h a (List.mem_cons_self a t)]

lemma isPercentDimension_token (neg : Bool) {ds : JStr} {dp : Option JStr} (hds : ds ≠ [])
    (hall : ds.all Char.isDigit = true) (hfall : (fracOf dp).all Char.isDigit = true) :
    isPercentDimension (numToken neg ds dp ++ ['%']) = true := by
  unfold isPercentDimension numToken
  rw [List.append_assoc, List.append_assoc,
    stripNeg_signBody neg (dotPartStr dp ++ ['%']) hds hall, ← List.append_assoc]
  have hrev : ((ds ++ dotPartStr dp) ++ ['%']).reverse =
      '%' :: (ds ++ dotPartStr dp).reverse := by simp
  rw [hrev]
  have hnp : ((ds ++ dotPartStr dp).reverse).takeWhile (· == '%') = [] :=
    takeWhile_pct_nil (fun c hc => body_no_pct hall hfall c (List.mem_reverse.1 hc))
  have h1 : ('%' :: (ds ++ dotPartStr dp).reverse).takeWhile (· == '%') = ['%'] := by
    rw [List.takeWhile_cons, if_pos (by decide), hnp]
  rw [h1]
  simp only [List.length_cons, List.length_nil, List.isEmpty_cons, List.drop_succ_cons,
    List.drop_zero, List.reverse_reverse, Bool.not_false, Bool.true_and]
  exact numCore_body hds hall hfall

lemma isPixelDimension_pct_token (neg : Bool) {ds : JStr} {dp : Option JStr} (hds : ds ≠ [])
    (hall : ds.all Char.isDigit = true) :
    isPixelDimension (numToken neg ds dp ++ ['%']) = false := by
  unfold isPixelDimension numToken
  rw [List.append_assoc, List.append_assoc,
    stripNeg_signBody neg (dotPartStr dp ++ ['%']) hds hall, ← List.append_assoc]
  have hrev : ((ds ++ dotPartStr dp) ++ ['%']).reverse =
      '%' :: (ds ++ dotPartStr dp).reverse := by simp
  rw [hrev]
  cases hb : (ds ++ dotPartStr dp).reverse with
  | nil => rfl
  | cons c w => simp +decide

lemma resolveValue_pixel_token (property : JStr) (neg : Bool) {ds : JStr} {dp : Option JStr}
    (context : Option SizingContext) (hds : ds ≠ []) (hall : ds.all Char.isDigit = true)
    (hfall : (fracOf dp).all Char.isDigit = true) :
    resolveValue (numToken neg ds dp ++ ['p', 'x']) property context =
      .num (numTokenValue neg ds dp) := by
  unfold resolveValue
  rw [isPixelDimension_token neg hds hall hfall, if_pos rfl]
  have h2 : numToken neg ds dp ++ ['p', 'x'] = ((numToken neg ds dp ++ ['p']) ++ ['x']) := by
    simp
  rw [h2, List.dropLast_concat, List.dropLast_concat]
  exact parseFloatQ_numToken neg hds hall hfall

lemma resolveValue_percent_token (property : JStr) (neg : Bool) {ds : JStr} {dp : Option JStr}
    (context : Option SizingContext) (hds : ds ≠ []) (hall : ds.all Char.isDigit = true)
    (hfall : (fracOf dp).all Char.isDigit = true) :
    resolveValue (numToken neg ds dp ++ ['%']) property context =
      .num (numTokenValue neg ds dp / 100 *
        (if endsWithJ property ['T', 'o', 'p'] || endsWithJ property ['B', 'o', 't', 't', 'o', 'm']
         then ctxHeight context else ctxWidth context)) := by
  unfold resolveValue
  rw [isPixelDimension_pct_token neg hds hall]
  rw [if_neg (by simp)]
  rw [isPercentDimension_token neg hds hall hfall, if_pos rfl]
  unfold resolvePercentDimension
  rw [List.dropLast_concat, toNumberQ_numToken neg hds hall hfall]
  cases h : (endsWithJ property ['T', 'o', 'p'] || endsWithJ property ['B', 'o', 't', 't', 'o', 'm']) with
  | true => simp [jsDiv100, jsMulQ]
  | false => simp [jsDiv100, jsMulQ]

/-- Claim C1: resolving a percent token `p%` against a context multiplies the
fraction `p/100` by the context height when the property name ends in `Top`
or `Bottom` and by the context width otherwise; with the context absent, or
with the relevant field absent, the multiplier defaults to 1 and the result
is the plain fraction `p/100`. -/
theorem resolveStyle_percent_token (style : List (JStr × JStr)) (property : JStr)
    (neg : Bool) (ds : JStr) (dp : Option JStr) (W H : ℚ)
    (hds : ds ≠ []) (hall : ds.all Char.isDigit = true)
    (hfall : (fracOf dp).all Char.isDigit = true)
    (hmem : (property, numToken neg ds dp ++ ['%']) ∈ style) :
    ((property, JsValue.num (numTokenValue neg ds dp / 100 *
        (if endsWithJ property ['T', 'o', 'p'] || endsWithJ property ['B', 'o', 't', 't', 'o', 'm']
         then H else W))) ∈ resolveStyle style (some ⟨some W, some H⟩))
    ∧ ((property, JsValue.num (numTokenValue neg ds dp / 100)) ∈ resolveStyle style none)
    ∧ ((property, JsValue.num (numTokenValue neg ds dp / 100)) ∈
        resolveStyle style (some ⟨none, none⟩)) := by
  have base : ∀ context : Option SizingContext,
      (property, resolveValue (numToken neg ds dp ++ ['%']) property context) ∈
        resolveStyle style context :=
    fun context => List.mem_map_of_mem (fun e => (e.1, resolveValue e.2 e.1 context)) hmem
  refine ⟨?_, ?_, ?_⟩
  · have h := base (some ⟨some W, some H⟩)
    rw [resolveValue_percent_token property neg _ hds hall hfall] at h
    simpa [ctxHeight, ctxWidth] using h
  · have h := base none
    rw [resolveValue_percent_token property neg _ hds hall hfall] at h
    simpa [ctxHeight, ctxWidth] using h
  · have h := base (some ⟨none, none⟩)
    rw [resolveValue_percent_token property neg _ hds hall hfall] at h
    simpa [ctxHeight, ctxWidth] using h

/-- Witness for C1: the style `{marginTop: "50%"}` resolved against the
context `{width: 2, height: 4}` yields `marginTop = 2` (50% of the height),
and resolved with no context yields `0.5`. -/
theorem resolveStyle_percent_token_witness :
    ((['m', 'a', 'r', 'g', 'i', 'n', 'T', 'o', 'p'], JsValue.num 2) ∈
      resolveStyle [(['m', 'a', 'r', 'g', 'i', 'n', 'T', 'o', 'p'],
        numToken false ['5', '0'] none ++ ['%'])] (some ⟨some 2, some 4⟩))
    ∧ ((['m', 'a', 'r', 'g', 'i', 'n', 'T', 'o', 'p'], JsValue.num (1 / 2)) ∈
      resolveStyle [(['m', 'a', 'r', 'g', 'i', 'n', 'T', 'o', 'p'],
        numToken false ['5', '0'] none ++ ['%'])] none) := by
  have h := resolveStyle_percent_token
    [(['m', 'a', 'r', 'g', 'i', 'n', 'T', 'o', 'p'], numToken false ['5', '0'] none ++ ['%'])]
    ['m', 'a', 'r', 'g', 'i', 'n', 'T', 'o', 'p'] false ['5', '0'] none 2 4
    (by decide) (by decide) (by decide) (by decide)
  obtain ⟨h1, h2, -⟩ := h
  constructor
  · simp +decide [numTokenValue, fracOf, digitsToNat, digitVal] at h1
    convert h1 using 3
    norm_num
  · simp +decide [numTokenValue, fracOf, digitsToNat, digitVal] at h2
    convert h2 using 3
    norm_num

/-- Claim C2: resolving a pixel token `n px` yields exactly the number `n`,
for every sizing context including an absent one. -/
theorem resolveStyle_pixel_token (style : List (JStr × JStr)) (property : JStr)
    (neg : Bool) (ds : JStr) (dp : Option JStr) (context : Option SizingContext)
    (hds : ds ≠ []) (hall : ds.all Char.isDigit = true)
    (hfall : (fracOf dp).all Char.isDigit = true)
    (hmem : (property, numToken neg ds dp ++ ['p', 'x']) ∈ style) :
    (property, JsValue.num (numTokenValue neg ds dp)) ∈ resolveStyle style context := by
  have h : (property, resolveValue (numToken neg ds dp ++ ['p', 'x']) property context) ∈
      resolveStyle style context :=
    List.mem_map_of_mem (fun e => (e.1, resolveValue e.2 e.1 context)) hmem
  rw [resolveValue_pixel_token property neg _ hds hall hfall] at h
  exact h

/-- Witness for C2: the style `{margin: "8px"}` resolves to `margin = 8`
with no context supplied. -/
theorem resolveStyle_pixel_token_witness :
    (['m', 'a', 'r', 'g', 'i', 'n'], JsValue.num 8) ∈
      resolveStyle [(['m', 'a', 'r', 'g', 'i', 'n'], numToken false ['8'] none ++ ['p', 'x'])]
        none := by
  have h := resolveStyle_pixel_token
    [(['m', 'a', 'r', 'g', 'i', 'n'], numToken false ['8'] none ++ ['p', 'x'])]
    ['m', 'a', 'r', 'g', 'i', 'n'] false ['8'] none none
    (by decide) (by decide) (by decide) (by decide)
  simp +decide [numTokenValue, fracOf, digitsToNat, digitVal] at h
  exact h

/-- Claim C8: a property value matching neither the pixel nor the percent
pattern passes through `resolveStyle` unchanged, for every context; the
resolver is a total function, so such a value is never rejected. -/
theorem resolveStyle_passthrough (style : List (JStr × JStr)) (property value : JStr)
    (context : Option SizingContext)
    (hpx : isPixelDimension value = false) (hpc : isPercentDimension value = false)
    (hmem : (property, value) ∈ style) :
    (property, JsValue.str value) ∈ resolveStyle style context := by
  have h := List.mem_map_of_mem (fun e => (e.1, resolveValue e.2 e.1 context)) hmem
  simpa [resolveStyle, resolveValue, hpx, hpc] using h

/-- Witness for C8: the style `{color: "red"}` passes the keyword through
unchanged. -/
theorem resolveStyle_passthrough_witness :
    (['c', 'o', 'l', 'o', 'r'], JsValue.str ['r', 'e', 'd']) ∈
      resolveStyle [(['c', 'o', 'l', 'o', 'r'], ['r', 'e', 'd'])] none :=
  resolveStyle_passthrough [(['c', 'o', 'l', 'o', 'r'], ['r', 'e', 'd'])]
    ['c', 'o', 'l', 'o', 'r'] ['r', 'e', 'd'] none (by decide) (by decide) (by decide)

/-- The layout record threaded through the bar-chart modifier: the outer
rectangle, the derived inner rectangle and the border widths consumed by the
axis computations (all the fields the embedded functions read or write). -/
structure Layout where
  x : ℚ
  y : ℚ
  width : ℚ
  height : ℚ
  innerX : ℚ
  innerY : ℚ
  innerWidth : ℚ
  innerHeight : ℚ
  borderLeftWidth : ℚ
  borderRightWidth : ℚ
deriving DecidableEq

/-- A resolved style as consumed by the layout computations: per the spec
every box-model property of a resolved style is present with a numeric
value (defaulting to 0), so the embedding carries them as rationals. -/
structure BoxStyle where
  paddingTop : ℚ
  paddingRight : ℚ
  paddingBottom : ℚ
  paddingLeft : ℚ
  borderTopWidth : ℚ
  borderRightWidth : ℚ
  borderBottomWidth : ℚ
  borderLeftWidth : ℚ
  marginTop : ℚ
  marginRight : ℚ
  marginBottom : ℚ
  marginLeft : ℚ
deriving DecidableEq

/-- The two fields of an axis-info record read by `addAxisPointer`
(`axisInfo.height` for the X axis, `axisInfo.width` for the Y axis). -/
structure PointerAxisInfo where
  width : ℚ
  height : ℚ
deriving DecidableEq

/-- The `axis` parameter of `addAxisPointer`. -/
inductive Axis where
  | x
  | y
deriving DecidableEq

def noneStr : JStr := ['n', 'o', 'n', 'e']

def topStr : JStr := ['t', 'o', 'p']

def rightStr : JStr := ['r', 'i', 'g', 'h', 't']

def bottomStr : JStr := ['b', 'o', 't', 't', 'o', 'm']

def leftStr : JStr := ['l', 'e', 'f', 't']

def lineStr : JStr := ['l', 'i', 'n', 'e']

/-- The early-return guard `if (!type || type === 'none')` of
`addAxisPointer`: the pointer type argument is absent, the empty string
(falsy), or the keyword `none`. -/
def pointerOff : Option JStr → Bool
  | none => true
  | some s => s.isEmpty || s == noneStr

/-- `labelSize` as computed in `addAxisPointer`: the axis size plus the
label paddings and border widths of the facing sides, per axis. -/
def labelSizeOf (axis : Axis) (axisInfo : PointerAxisInfo) (labelStyle : BoxStyle) : ℚ :=
  match axis with
  | .x => axisInfo.height + labelStyle.paddingTop + labelStyle.paddingBottom +
      labelStyle.borderTopWidth + labelStyle.borderBottomWidth
  | .y => axisInfo.width + labelStyle.paddingLeft + labelStyle.paddingRight +
      labelStyle.borderLeftWidth + labelStyle.borderRightWidth

/-- `labelMargins` as computed in `addAxisPointer`. -/
def labelMarginsOf (axis : Axis) (labelStyle : BoxStyle) : ℚ :=
  match axis with
  | .x => labelStyle.marginTop + labelStyle.marginBottom
  | .y => labelStyle.marginLeft + labelStyle.marginRight

/-- `addAxisPointer(context, layout, config, axisInfo, axis)` from
`bar-chart.js`, restricted to its layout effect: the returned layout (first
component) and the `config.axisPointer.label.margin` value it sets, when it
sets one (second component). The label style argument is the resolved
`styles[name + "Label"]` and the label position argument is
`args[name + "Label"] ?? "bottom"`. When the pointer type is falsy or
`none` the input layout object itself is returned; otherwise the source
copies the layout (`{ ...layout }`) and applies the `switch` on the label
position to the copy, reading `layout.innerHeight`/`layout.innerWidth` of
the original layout for the margin offsets. -/
def addAxisPointer (ptrType : Option JStr) (labelPositionArg : Option JStr)
    (labelStyle : BoxStyle) (axisInfo : PointerAxisInfo) (axis : Axis)
    (layout : Layout) : Layout × Option ℚ :=
  if pointerOff ptrType then (layout, none)
  else
    let labelPosition := labelPositionArg.getD bottomStr
    let labelSize := labelSizeOf axis axisInfo labelStyle
    let labelMargins := labelMarginsOf axis labelStyle
    if labelPosition == topStr then
      ({ layout with
          innerHeight := layout.innerHeight - (labelSize + labelMargins),
          innerY := layout.innerY + (axisInfo.height + labelMargins) },
        some (labelSize + labelStyle.marginTop - layout.innerHeight))
    else if labelPosition == rightStr then
      ({ layout with innerWidth := layout.innerWidth - (labelSize + labelMargins) },
        some (labelSize - labelStyle.marginLeft - layout.innerWidth))
    else if labelPosition == bottomStr then
      ({ layout with innerHeight := layout.innerHeight - labelStyle.marginTop },
        some labelStyle.marginTop)
    else if labelPosition == leftStr then
      (layout, some labelStyle.marginRight)
    else
      (layout, none)

def layoutZero : Layout := ⟨0, 0, 0, 0, 0, 0, 0, 0, 0, 0⟩

/-- A sample layout for concrete runs. -/
def layoutSample : Layout := ⟨0, 0, 400, 300, 10, 10, 380, 280, 1, 1⟩

/-- A sample pointer-label style with nonzero paddings, borders and margins. -/
def boxStyleSample : BoxStyle := ⟨4, 4, 4, 4, 1, 1, 1, 1, 4, 4, 4, 4⟩

/-- Counterexample to claim C3 as stated: with the label position `left`
(the documented default-adjacent position for the Y axis pointer label) and
a pointer label of nonzero size and margins, `addAxisPointer` returns the
layout unchanged instead of shrinking the inner rectangle by the label size
plus margins; the same holds for `bottom`, which shrinks only by the label's
top margin. -/
theorem addAxisPointer_left_no_shrink :
    ((addAxisPointer (some lineStr) (some leftStr) boxStyleSample ⟨30, 20⟩ Axis.y
        layoutSample).1.innerWidth ≠
      layoutSample.innerWidth -
        (labelSizeOf Axis.y ⟨30, 20⟩ boxStyleSample + labelMarginsOf Axis.y boxStyleSample))
    ∧ ((addAxisPointer (some lineStr) (some bottomStr) boxStyleSample ⟨30, 20⟩ Axis.x
        layoutSample).1.innerHeight ≠
      layoutSample.innerHeight -
        (labelSizeOf Axis.x ⟨30, 20⟩ boxStyleSample + labelMarginsOf Axis.x boxStyleSample)) := by
  constructor
  · simp +decide [addAxisPointer, pointerOff, labelSizeOf, labelMarginsOf, layoutSample,
      boxStyleSample, lineStr, leftStr, rightStr, topStr, bottomStr, noneStr]
    norm_num
  · simp +decide [addAxisPointer, pointerOff, labelSizeOf, labelMarginsOf, layoutSample,
      boxStyleSample, lineStr, leftStr, rightStr, topStr, bottomStr, noneStr]
    norm_num

/-- Claim C3 (amended): with an active pointer, the label position `top`
shrinks the inner height by the label size plus its vertical margins (and
moves the inner top down by the axis height plus margins); `right` shrinks
the inner width by the label size plus its horizontal margins; `bottom`
shrinks the inner height by the label's top margin only; `left` leaves the
inner rectangle unchanged; and a falsy or `none` pointer type, or a `none`
label position, returns the input layout's fields unchanged. -/
theorem addAxisPointer_layout (t : JStr) (lp : Option JStr) (ls : BoxStyle)
    (ai : PointerAxisInfo) (ax : Axis) (L : Layout)
    (ht1 : t ≠ []) (ht2 : t ≠ noneStr) :
    ((addAxisPointer (some t) (some topStr) ls ai ax L).1 =
      { L with
          innerHeight := L.innerHeight - (labelSizeOf ax ai ls + labelMarginsOf ax ls),
          innerY := L.innerY + (ai.height + labelMarginsOf ax ls) })
    ∧ ((addAxisPointer (some t) (some rightStr) ls ai ax L).1 =
      { L with innerWidth := L.innerWidth - (labelSizeOf ax ai ls + labelMarginsOf ax ls) })
    ∧ ((addAxisPointer (some t) (some bottomStr) ls ai ax L).1 =
      { L with innerHeight := L.innerHeight - ls.marginTop })
    ∧ ((addAxisPointer (some t) (some leftStr) ls ai ax L).1 = L)
    ∧ ((addAxisPointer none lp ls ai ax L).1 = L)
    ∧ ((addAxisPointer (some noneStr) lp ls ai ax L).1 = L)
    ∧ ((addAxisPointer (some t) (some noneStr) ls ai ax L).1 = L) := by
  have hoff : pointerOff (some t) = false := by
    simp [pointerOff, isEmpty_false_of_ne ht1, ht2]
  refine ⟨?_, ?_, ?_, ?_, ?_, ?_, ?_⟩
  · simp +decide [addAxisPointer, hoff]
  · simp +decide [addAxisPointer, hoff, rightStr, topStr]
  · simp +decide [addAxisPointer, hoff, bottomStr, topStr, rightStr]
  · simp +decide [addAxisPointer, hoff, leftStr, topStr, rightStr, bottomStr]
  · simp [addAxisPointer, pointerOff]
  · simp [addAxisPointer, pointerOff]
  · simp +decide [addAxisPointer, hoff, noneStr, topStr, rightStr, bottomStr, leftStr]

/-- Witness for the amended C3 at a concrete input: a `line` pointer with a
`right` label position shrinks the inner width of the sample layout by the
label size plus margins, and a `none` label position leaves it unchanged. -/
theorem addAxisPointer_layout_witness :
    ((addAxisPointer (some lineStr) (some rightStr) boxStyleSample ⟨30, 20⟩ Axis.y
        layoutSample).1 =
      { layoutSample with
          innerWidth := layoutSample.innerWidth -
            (labelSizeOf Axis.y ⟨30, 20⟩ boxStyleSample +
              labelMarginsOf Axis.y boxStyleSample) })
    ∧ ((addAxisPointer (some lineStr) (some noneStr) boxStyleSample ⟨30, 20⟩ Axis.y
        layoutSample).1 = layoutSample) := by
  have h := addAxisPointer_layout lineStr (some noneStr) boxStyleSample ⟨30, 20⟩ Axis.y
    layoutSample (by decide) (by decide)
  exact ⟨h.2.1, h.2.2.2.2.2.2⟩

/-- A text-measurement result: `{width, height, fontHeight}`. -/
structure TextMetrics where
  width : ℚ
  height : ℚ
  fontHeight : ℚ
deriving DecidableEq

/-- Modelled from the spec: the Text Metrics Service depends on an external
glyph-measurement primitive (`compute-text-metrics.js` is not under src/),
which the spec requires to be deterministic and side-effect free; the
embedding therefore takes the unconstrained single-line measurement as an
environment function. `numToString` models JavaScript number-to-string
conversion, which feeds only this black-box measurement. -/
structure TextEnv where
  measureText : JStr → BoxStyle → TextMetrics
  numToString : ℚ → JStr

/-- Modelled from the spec: `computeTextMetrics(text, style, maxWidth?)` —
without `maxWidth` the single-line metrics; with `maxWidth`, when the
unconstrained width exceeds it, the text wraps across the minimum number of
lines needed to fit, the height scales by the line count and the width is
capped at `maxWidth`. -/
def computeTextMetrics (env : TextEnv) (text : JStr) (style : BoxStyle)
    (maxWidth : Option ℚ) : TextMetrics :=
  let m := env.measureText text style
  match maxWidth with
  | none => m
  | some w =>
    if m.width ≤ w then m
    else ⟨w, m.height * (⌈m.width / w⌉ : ℤ), m.fontHeight⟩

/-- Modelled from the spec: `computeMaxTextMetrics(labels, style, maxWidth?)`
returns the metrics of whichever label produces the greatest width, ties
broken by first occurrence. -/
def computeMaxTextMetrics (env : TextEnv) (labels : List JStr) (style : BoxStyle)
    (maxWidth : Option ℚ) : TextMetrics :=
  (labels.map fun l => computeTextMetrics env l style maxWidth).foldl
    (fun best m => if best.width < m.width then m else best) ⟨0, 0, 0⟩

/-- The result of `computeYAxisInfo` in `bar-chart.js`: no height is
returned by the source (the X axis height would be needed to compute it). -/
structure YAxisInfo where
  width : ℚ
  labelMetrics : TextMetrics
  heightOverflow : ℚ
deriving DecidableEq

/-- The result of `computeXAxisInfo` in `bar-chart.js`. -/
structure XAxisInfo where
  width : ℚ
  height : ℚ
  labelMetrics : TextMetrics
  maxLabelWidth : ℚ
deriving DecidableEq

/-- `computeYAxisInfo(style, labels, maxValue)` from `bar-chart.js`: the
axis width is the measured maximum label width plus the style's left and
right margins, and `heightOverflow` is half the measured height of the
stringified maximum value (the topmost label). -/
def computeYAxisInfo (env : TextEnv) (style : BoxStyle) (labels : List JStr)
    (maxValue : ℚ) : YAxisInfo :=
  let labelMetrics := computeMaxTextMetrics env labels style none
  let width := labelMetrics.width + style.marginLeft + style.marginRight
  let topLabelMetrics := computeTextMetrics env (env.numToString maxValue) style none
  ⟨width, labelMetrics, topLabelMetrics.height / 2⟩

/-- `computeXAxisInfo(args, layout, style, labels, yAxisInfo, isHorizontal)`
from `bar-chart.js`. `categoryAxisMaxLabelCount` is the only field of `args`
the source reads here. The divisor 10 for a horizontal (value) X axis is the
source's arbitrary fallback divisor. -/
def computeXAxisInfo (env : TextEnv) (categoryAxisMaxLabelCount : Option ℕ)
    (layout : Layout) (style : BoxStyle) (labels : List JStr) (yAxisInfo : YAxisInfo)
    (isHorizontal : Bool) : XAxisInfo :=
  let maxLabelCount := min (categoryAxisMaxLabelCount.getD labels.length) labels.length
  let width := layout.innerWidth - yAxisInfo.width - layout.borderLeftWidth -
    layout.borderRightWidth
  let lineWidth : ℚ := if isHorizontal then 0 else 1
  let maxLabelWidth := width / (if isHorizontal then (10 : ℚ) else (maxLabelCount : ℚ))
  let labelMetrics := computeMaxTextMetrics env labels style (some maxLabelWidth)
  ⟨width, labelMetrics.height + style.marginTop + style.marginBottom + lineWidth,
    labelMetrics, maxLabelWidth⟩

/-- The axis-sizing pipeline order fixed by `generatePlotConfig`: the Y axis
info is computed first, then the X axis info is computed from it. -/
def axisSizing (env : TextEnv) (categoryAxisMaxLabelCount : Option ℕ) (layout : Layout)
    (yStyle xStyle : BoxStyle) (yLabels xLabels : List JStr) (maxValue : ℚ)
    (isHorizontal : Bool) : YAxisInfo × XAxisInfo :=
  let yi := computeYAxisInfo env yStyle yLabels maxValue
  (yi, computeXAxisInfo env categoryAxisMaxLabelCount layout xStyle xLabels yi isHorizontal)

lemma foldl_best_width (ms : List TextMetrics) (b : TextMetrics) :
    (ms.foldl (fun best m => if best.width < m.width then m else best) b).width =
      ms.foldl (fun w m => max w m.width) b.width := by
  induction ms generalizing b with
  | nil => rfl
  | cons m t ih =>
    simp only [List.foldl_cons]
    rw [ih]
    congr 1
    split
    · next h => exact (max_eq_right h.le).symm
    · next h => exact (max_eq_left (not_lt.mp h)).symm

/-- Claim C5: `computeYAxisInfo` returns a width equal to the maximum of the
measured widths of the labels plus the style's left and right margins, and a
`heightOverflow` equal to half the measured height of the maximum-value
(topmost) label. -/
theorem computeYAxisInfo_spec (env : TextEnv) (style : BoxStyle) (labels : List JStr)
    (maxValue : ℚ) :
    ((computeYAxisInfo env style labels maxValue).width =
      (labels.map fun l => (computeTextMetrics env l style none).width).foldl max 0 +
        style.marginLeft + style.marginRight)
    ∧ ((computeYAxisInfo env style labels maxValue).heightOverflow =
      (computeTextMetrics env (env.numToString maxValue) style none).height / 2) := by
  constructor
  · show (computeMaxTextMetrics env labels style none).width + _ + _ = _
    unfold computeMaxTextMetrics
    rw [foldl_best_width, List.foldl_map, List.foldl_map]
  · rfl

/-- A constant measurement environment for concrete runs. -/
def textEnvZero : TextEnv := ⟨fun _ _ => ⟨0, 0, 0⟩, fun _ => []⟩

/-- A measurement environment whose width is the character count (and whose
line height is 1), for concrete runs. -/
def textEnvLen : TextEnv := ⟨fun s _ => ⟨(s.length : ℚ), 1, 1⟩, fun _ => []⟩

/-- An all-zero style for concrete runs. -/
def boxStyleZero : BoxStyle := ⟨0, 0, 0, 0, 0, 0, 0, 0, 0, 0, 0, 0⟩

/-- A wide sample layout for concrete axis-sizing runs. -/
def layoutWide : Layout := ⟨0, 0, 400, 300, 0, 0, 100, 80, 0, 0⟩

/-- Counterexample to claim C4 as stated: with
`categoryAxisMaxLabelCount = 1` and two category labels, the source divides
the remaining width by the capped label count (1), not by the number of
category labels (2). -/
theorem computeXAxisInfo_divisor_counterexample :
    (computeXAxisInfo textEnvZero (some 1) layoutWide boxStyleZero [['a'], ['b']]
        ⟨0, ⟨0, 0, 0⟩, 0⟩ false).maxLabelWidth ≠
      (computeXAxisInfo textEnvZero (some 1) layoutWide boxStyleZero [['a'], ['b']]
        ⟨0, ⟨0, 0, 0⟩, 0⟩ false).width / 2 := by
  simp [computeXAxisInfo, layoutWide, boxStyleZero]
  norm_num

/-- Claim C4 (amended): `computeXAxisInfo` computes the remaining width as
the layout's inner width minus the Y axis width and the left/right border
widths; for a category (vertical) X axis it derives `maxLabelWidth` by
dividing that width by `min(categoryAxisMaxLabelCount ?? labelCount,
labelCount)` — which is the number of category labels whenever
`categoryAxisMaxLabelCount` is absent — and for a continuous value
(horizontal) X axis it divides by the fixed fallback divisor 10. -/
theorem computeXAxisInfo_spec (env : TextEnv) (cnt : Option ℕ) (layout : Layout)
    (style : BoxStyle) (labels : List JStr) (yi : YAxisInfo) :
    ((computeXAxisInfo env cnt layout style labels yi false).width =
      layout.innerWidth - yi.width - layout.borderLeftWidth - layout.borderRightWidth)
    ∧ ((computeXAxisInfo env cnt layout style labels yi false).maxLabelWidth =
      (layout.innerWidth - yi.width - layout.borderLeftWidth - layout.borderRightWidth) /
        (min (cnt.getD labels.length) labels.length : ℕ))
    ∧ ((computeXAxisInfo env none layout style labels yi false).maxLabelWidth =
      (layout.innerWidth - yi.width - layout.borderLeftWidth - layout.borderRightWidth) /
        (labels.length : ℕ))
    ∧ ((computeXAxisInfo env cnt layout style labels yi true).maxLabelWidth =
      (layout.innerWidth - yi.width - layout.borderLeftWidth - layout.borderRightWidth) /
        10) := by
  refine ⟨rfl, ?_, ?_, rfl⟩
  · simp [computeXAxisInfo]
  · simp [computeXAxisInfo]

/-- Claim C6: axis sizing is order-dependent in exactly one direction — at a
concrete input, changing only the Y axis labels changes the width computed
for the X axis (which nets out the Y axis width), while for all inputs the
Y axis info computed by the pipeline is identical for any two X axis label
lists. -/
theorem axisSizing_order_dependence :
    ((axisSizing textEnvLen none layoutWide boxStyleZero boxStyleZero [['a']] [['c']] 0
        false).2.width ≠
      (axisSizing textEnvLen none layoutWide boxStyleZero boxStyleZero [['a', 'a']] [['c']] 0
        false).2.width)
    ∧ ∀ (env : TextEnv) (cnt : Option ℕ) (layout : Layout) (yStyle xStyle : BoxStyle)
        (yLabels xLabels1 xLabels2 : List JStr) (maxValue : ℚ) (hz : Bool),
        (axisSizing env cnt layout yStyle xStyle yLabels xLabels1 maxValue hz).1 =
          (axisSizing env cnt layout yStyle xStyle yLabels xLabels2 maxValue hz).1 := by
  constructor
  · simp [axisSizing, computeXAxisInfo, computeYAxisInfo, computeMaxTextMetrics,
      computeTextMetrics, textEnvLen, layoutWide, boxStyleZero]
  · intro env cnt layout yStyle xStyle yLabels xLabels1 xLabels2 maxValue hz
    rfl

def firstSeriesStr : JStr := ['f', 'i', 'r', 's', 't', 'S', 'e', 'r', 'i', 'e', 's']

def ascStr : JStr := ['a', 's', 'c']

def descStr : JStr := ['d', 'e', 's', 'c']

/-- A warning emitted on the console: `getCategories` warns on an invalid
`categoryAxisSort` value instead of throwing. -/
inductive Warning where
  | invalidCategoryAxisSort (value : JStr)
deriving DecidableEq

/-- The `categoryAxisSort` argument: a keyword string, or a custom
comparator function (returning a negative, zero or positive number). -/
inductive SortArg where
  | str (s : JStr)
  | fn (cmp : JStr → JStr → ℤ)

def getUniqueDatasetValuesAux : List JStr → List JStr → List JStr
  | [], _ => []
  | a :: l, seen =>
    if a ∈ seen then getUniqueDatasetValuesAux l seen
    else a :: getUniqueDatasetValuesAux l (a :: seen)

/-- Modelled from the spec: `getUniqueDatasetValues(series, 'name')`
(`get-unique-dataset-values.js` is not under src/) produces the distinct
`name` values of the data items across all series, in stable first-seen
order. Each series is modelled by the list of its data item names. -/
def getUniqueDatasetValues (series : List (List JStr)) : List JStr :=
  getUniqueDatasetValuesAux (series.foldr (· ++ ·) []) []

/-- One step of insertion sort with a Boolean `should come no later than`
relation. -/
def insertBy (le : JStr → JStr → Bool) (a : JStr) : List JStr → List JStr
  | [] => [a]
  | b :: l => if le a b then a :: b :: l else b :: insertBy le a l

/-- The model of `Array.prototype.sort`: a comparison sort, which reorders
the array to be sorted by `le` and — like the JavaScript built-in for every
comparator — always produces a permutation of the input elements. -/
def sortBy (le : JStr → JStr → Bool) (l : List JStr) : List JStr :=
  l.foldr (insertBy le) []

/-- The default JavaScript sort order: lexicographic comparison of the
strings by code unit. -/
def lexLe : JStr → JStr → Bool
  | [], _ => true
  | _ :: _, [] => false
  | a :: as, b :: bs => if a = b then lexLe as bs else decide (a < b)

/-- `getCategories(args, series)` from `bar-chart.js`: extracts the unique
names, then dispatches on `categoryAxisSort` (default `firstSeries`):
`asc` sorts, `desc` sorts and reverses, a function sorts with it as the
comparator, and any other value leaves the order unchanged and emits a
console warning (no exception is thrown: the embedding is a total
function returning the categories and the emitted warnings). -/
def getCategories (categoryAxisSort : Option SortArg) (series : List (List JStr)) :
    List JStr × List Warning :=
  let sortArg := categoryAxisSort.getD (.str firstSeriesStr)
  let categories := getUniqueDatasetValues series
  match sortArg with
  | .str s =>
    if s == firstSeriesStr then (categories, [])
    else if s == ascStr then (sortBy lexLe categories, [])
    else if s == descStr then ((sortBy lexLe categories).reverse, [])
    else (categories, [.invalidCategoryAxisSort s])
  | .fn cmp => (sortBy (fun a b => decide (cmp a b ≤ 0)) categories, [])

/-- Claim C7: an invalid `categoryAxisSort` string (none of `firstSeries`,
`asc`, `desc`, and not a function) returns the categories in their original
first-encountered order with a warning emitted, and does not throw. -/
theorem getCategories_invalid_sort (series : List (List JStr)) (s : JStr)
    (h1 : s ≠ firstSeriesStr) (h2 : s ≠ ascStr) (h3 : s ≠ descStr) :
    getCategories (some (.str s)) series =
      (getUniqueDatasetValues series, [Warning.invalidCategoryAxisSort s]) := by
  simp [getCategories, h1, h2, h3]

/-- Witness for C7: `categoryAxisSort: "bogus"` over two series returns the
first-seen category order plus one warning. -/
theorem getCategories_invalid_sort_witness :
    getCategories (some (.str ['b', 'o', 'g', 'u', 's'])) [[['q'], ['p']], [['p'], ['r']]] =
      ([['q'], ['p'], ['r']], [Warning.invalidCategoryAxisSort ['b', 'o', 'g', 'u', 's']]) := by
  have h := getCategories_invalid_sort [[['q'], ['p']], [['p'], ['r']]]
    ['b', 'o', 'g', 'u', 's'] (by decide) (by decide) (by decide)
  rw [h]
  rfl

lemma insertBy_perm (le : JStr → JStr → Bool) (a : JStr) (l : List JStr) :
    (insertBy le a l).Perm (a :: l) := by
  induction l with
  | nil => exact .refl _
  | cons b t ih =>
    simp only [insertBy]
    split
    · exact .refl _
    · exact (ih.cons b).trans (List.Perm.swap a b t)

lemma sortBy_perm (le : JStr → JStr → Bool) (l : List JStr) :
    (sortBy le l).Perm l := by
  induction l with
  | nil => exact .refl _
  | cons a t ih => exact (insertBy_perm le a (sortBy le t)).trans (ih.cons a)

/-- Claim C10: for every `categoryAxisSort` value — keyword, comparator
function, or invalid string — `getCategories` returns a permutation of the
unique names of the series: sorting only reorders categories and never
adds, drops or duplicates one. -/
theorem getCategories_preserves_elements (categoryAxisSort : Option SortArg)
    (series : List (List JStr)) :
    (getCategories categoryAxisSort series).1.Perm (getUniqueDatasetValues series) := by
  unfold getCategories
  cases categoryAxisSort with
  | none => exact .refl _
  | some arg =>
    cases arg with
    | fn cmp => exact sortBy_perm _ _
    | str s =>
      by_cases h1 : s == firstSeriesStr
      · simp [h1]
      · by_cases h2 : s == ascStr
        · simp [h1, h2, sortBy_perm]
        · by_cases h3 : s == descStr
          · simp only [h1, h2, h3, Option.getD_some, Bool.false_eq_true, if_false, if_pos]
            exact (List.reverse_perm _).trans (sortBy_perm _ _)
          · simp [h1, h2, h3]

/-- The subset of the `config.axisPointer` record whose writes the frame
analysis tracks: the pointer type, the tooltip trigger, whether the label is
shown, and the label margin set by the `switch` on the label position. The
remaining fields copy style values and do not change which objects are
written. -/
structure AxisPointerConfig where
  ptrType : JStr
  triggerTooltip : Bool
  labelShow : Bool
  labelMargin : Option ℚ
deriving DecidableEq

/-- A JavaScript object stored on the heap: one constructor per object shape
handled by the engine operations under frame analysis. -/
inductive JsObj where
  | layoutObj (L : Layout)
  | strArr (a : List JStr)
  | seriesArr (s : List (List JStr))
  | styleObj (m : List (JStr × JStr))
  | resolvedObj (m : List (JStr × JsValue))
  | configObj (c : Option AxisPointerConfig)
deriving DecidableEq

/-- A bump-allocated heap of JavaScript objects: addresses below `next` are
live; `alloc` returns a fresh address. Object mutation in the source becomes
an explicit `write` at the mutated object's address, so the frame effect of
each operation — which argument objects it leaves untouched — is visible in
the embedding. -/
structure Heap where
  next : ℕ
  mem : ℕ → JsObj

def Heap.alloc (h : Heap) (v : JsObj) : ℕ × Heap :=
  (h.next, ⟨h.next + 1, Function.update h.mem h.next v⟩)

def Heap.write (h : Heap) (a : ℕ) (v : JsObj) : Heap :=
  ⟨h.next, Function.update h.mem a v⟩

def JsObj.asLayout : JsObj → Layout
  | .layoutObj L => L
  | _ => layoutZero

def JsObj.asSeries : JsObj → List (List JStr)
  | .seriesArr s => s
  | _ => []

def JsObj.asStyle : JsObj → List (JStr × JStr)
  | .styleObj m => m
  | _ => []

/-- `resolveStyle` under the heap semantics: `mapValues` reads the style
object and allocates a fresh result object; no write targets an existing
address. -/
def resolveStyleH (styleAddr : ℕ) (context : Option SizingContext) (h : Heap) : ℕ × Heap :=
  h.alloc (.resolvedObj (resolveStyle ((h.mem styleAddr).asStyle) context))

/-- `getCategories` under the heap semantics: `getUniqueDatasetValues`
allocates a fresh categories array from the series object, and the
subsequent `categories.sort()` mutates that fresh array in place (a write at
its own address); the series argument is never written. -/
def getCategoriesH (categoryAxisSort : Option SortArg) (seriesAddr : ℕ) (h : Heap) :
    ℕ × Heap :=
  let series := (h.mem seriesAddr).asSeries
  let fresh := h.alloc (.strArr (getUniqueDatasetValues series))
  (fresh.1, fresh.2.write fresh.1 (.strArr (getCategories categoryAxisSort series).1))

/-- The write of `config.axisPointer.label.margin = m` on the config object
at `ca` (a no-op on a heap whose cell at `ca` is not a config object with
`axisPointer` set, which never happens in the embedded control flow). -/
def writeLabelMargin (ca : ℕ) (m : ℚ) (h : Heap) : Heap :=
  match h.mem ca with
  | .configObj (some c) =>
    h.write ca (.configObj (some ⟨c.ptrType, c.triggerTooltip, c.labelShow, some m⟩))
  | _ => h

/-- `addAxisPointer` under the heap semantics, mirroring the source's
statements in order: the guard returns the layout argument's own address;
otherwise `config.axisPointer` is assigned on the config argument, the
layout is shallow-copied into a fresh object (`{ ...layout }`), and the
`switch` on the label position performs its compound-assignment writes on
the fresh copy plus the label-margin write on the config argument, with the
margin offsets reading the original layout object. -/
def addAxisPointerH (ptrType : Option JStr) (labelPositionArg : Option JStr)
    (labelStyle : BoxStyle) (axisInfo : PointerAxisInfo) (axis : Axis)
    (triggerTooltipArg : Option Bool) (la ca : ℕ) (h : Heap) : ℕ × Heap :=
  if pointerOff ptrType then (la, h)
  else
    let labelPosition := labelPositionArg.getD bottomStr
    let baseCfg : AxisPointerConfig :=
      ⟨ptrType.getD [], triggerTooltipArg.getD (axis == Axis.x),
        !(labelPosition == noneStr), none⟩
    let h1 := h.write ca (.configObj (some baseCfg))
    let L := (h1.mem la).asLayout
    let na := h1.next
    let h2 := (h1.alloc (.layoutObj L)).2
    let labelSize := labelSizeOf axis axisInfo labelStyle
    let labelMargins := labelMarginsOf axis labelStyle
    let h3 :=
      if labelPosition == topStr then
        let hA := h2.write na (.layoutObj { (h2.mem na).asLayout with
          innerHeight := (h2.mem na).asLayout.innerHeight - (labelSize + labelMargins) })
        let hB := hA.write na (.layoutObj { (hA.mem na).asLayout with
          innerY := (hA.mem na).asLayout.innerY + (axisInfo.height + labelMargins) })
        writeLabelMargin ca (labelSize + labelStyle.marginTop - L.innerHeight) hB
      else if labelPosition == rightStr then
        let hA := h2.write na (.layoutObj { (h2.mem na).asLayout with
          innerWidth := (h2.mem na).asLayout.innerWidth - (labelSize + labelMargins) })
        writeLabelMargin ca (labelSize - labelStyle.marginLeft - L.innerWidth) hA
      else if labelPosition == bottomStr then
        let hA := h2.write na (.layoutObj { (h2.mem na).asLayout with
          innerHeight := (h2.mem na).asLayout.innerHeight - labelStyle.marginTop })
        writeLabelMargin ca labelStyle.marginTop hA
      else if labelPosition == leftStr then
        writeLabelMargin ca labelStyle.marginRight h2
      else h2
    (na, h3)

lemma Heap.write_mem_ne (h : Heap) (a : ℕ) (v : JsObj) {b : ℕ} (hb : b ≠ a) :
    (h.write a v).mem b = h.mem b := by
  simp [Heap.write, Function.update_noteq hb]

lemma Heap.alloc_mem_lt (h : Heap) (v : JsObj) {b : ℕ} (hb : b < h.next) :
    (h.alloc v).2.mem b = h.mem b := by
  simp [Heap.alloc, Function.update_noteq (Nat.ne_of_lt hb)]

lemma writeLabelMargin_mem_ne (ca : ℕ) (m : ℚ) (h : Heap) {b : ℕ} (hb : b ≠ ca) :
    (writeLabelMargin ca m h).mem b = h.mem b := by
  unfold writeLabelMargin
  split
  · exact h.write_mem_ne ca _ hb
  · rfl

/-- A sample two-object heap: a layout object at address 0 and an (empty)
config object at address 1. -/
def heapSample : Heap :=
  ⟨2, fun n => if n = 0 then .layoutObj layoutSample else .configObj none⟩

/-- Counterexample to claim C9 as stated ("no engine operation mutates its
input objects"): `addAxisPointer` writes the axis-pointer configuration into
the config object passed to it, so after a concrete call the config argument
at address 1 differs from its value before the call. -/
theorem addAxisPointer_mutates_config :
    (addAxisPointerH (some lineStr) (some leftStr) boxStyleSample ⟨30, 20⟩ Axis.y none 0 1
        heapSample).2.mem 1 ≠ heapSample.mem 1 := by
  decide

/-- Claim C9 (amended): `resolveStyle` leaves its style argument unchanged
(it allocates a fresh result object), `getCategories` leaves its series
argument unchanged (the in-place sort mutates only the fresh categories
array), and `addAxisPointer` leaves its layout argument unchanged and, when
the pointer is active, returns a freshly allocated layout object; however
`addAxisPointer` does write the pointer configuration into its config
argument, which acts as an out-parameter (see the counterexample). -/
theorem engine_frame_conditions (context : Option SizingContext) (sortArg : Option SortArg)
    (t lp : Option JStr) (ls : BoxStyle) (ai : PointerAxisInfo) (ax : Axis)
    (tta : Option Bool) (h : Heap) (styleAddr seriesAddr la ca : ℕ)
    (hs : styleAddr < h.next) (hse : seriesAddr < h.next) (hla : la < h.next)
    (hca : ca < h.next) (hlc : la ≠ ca) :
    ((resolveStyleH styleAddr context h).2.mem styleAddr = h.mem styleAddr)
    ∧ ((getCategoriesH sortArg seriesAddr h).2.mem seriesAddr = h.mem seriesAddr)
    ∧ ((addAxisPointerH t lp ls ai ax tta la ca h).2.mem la = h.mem la)
    ∧ (pointerOff t = false →
        (addAxisPointerH t lp ls ai ax tta la ca h).1 = h.next) := by
  have hna : la ≠ h.next := Nat.ne_of_lt hla
  have hcan : ca ≠ h.next := Nat.ne_of_lt hca
  refine ⟨?_, ?_, ?_, ?_⟩
  · exact Heap.alloc_mem_lt h _ hs
  · simp [getCategoriesH, Heap.alloc, Heap.write, Function.update_apply,
      Nat.ne_of_lt hse]
  · by_cases hpo : pointerOff t
    · simp [addAxisPointerH, hpo]
    · simp only [addAxisPointerH, hpo, Bool.false_eq_true, if_false]
      split_ifs <;>
        simp [writeLabelMargin, Heap.write, Heap.alloc, Function.update_apply,
          hlc, hna, hcan]
  · intro hpo
    simp [addAxisPointerH, hpo, Heap.write]

/-- Witness for the amended C9 at a concrete heap: the layout object at
address 0 and (for the first two conjuncts) the argument objects are
untouched by the three operations, and the active pointer call returns the
fresh address. -/
theorem engine_frame_conditions_witness :
    ((resolveStyleH 0 none heapSample).2.mem 0 = heapSample.mem 0)
    ∧ ((getCategoriesH none 0 heapSample).2.mem 0 = heapSample.mem 0)
    ∧ ((addAxisPointerH (some lineStr) (some leftStr) boxStyleSample ⟨30, 20⟩ Axis.y none 0 1
        heapSample).2.mem 0 = heapSample.mem 0)
    ∧ (pointerOff (some lineStr) = false →
        (addAxisPointerH (some lineStr) (some leftStr) boxStyleSample ⟨30, 20⟩ Axis.y none 0 1
          heapSample).1 = heapSample.next) :=
  engine_frame_conditions none none (some lineStr) (some leftStr) boxStyleSample ⟨30, 20⟩
    Axis.y none heapSample 0 0 0 1 (by decide) (by decide) (by decide) (by decide) (by decide)
